import Mathlib

/-!
# Verification of the `tyler` spatial indexing and tiling pipeline

This file is a shallow embedding, in Lean 4, of the parts of the `tyler`
repository that the specification's claims are about:

* `src/spatial_structs.rs` — the `SquareGrid` data structure, its constructor,
  point location, insertion, the cell bounding-box lookup, the grid iterator,
  and the `morton_encode` stub;
* `src/main.rs` — the tail of `main` from the tileset-generation stage onward,
  including the early `return Ok(())` and the (unreachable) parallel per-tile
  export phase.

Modelling conventions:

* `f64` values are embedded as rationals (`ℚ`).  All concrete coordinates used
  by the repository's tests and by the witnesses below are exactly
  representable in `f64`, and all arithmetic performed on them by the code
  (addition, subtraction, absolute value, division, ceiling) is exact at these
  values, so the rational model agrees with the IEEE semantics there.
  A second model (`FVal`, an `Option ℚ` with `none` playing the role of a
  `f64` NaN) is used where a claim is about non-finite inputs; its operations
  follow the IEEE rules for NaN propagation (any operation on NaN gives NaN,
  comparisons with NaN are false, `NaN as usize` is `0`).
* Rust's saturating float-to-integer cast `as usize` is `ceilToUsize`:
  negative values clamp to `0` (`Int.toNat`), values above `usize::MAX` clamp
  to `usize::MAX`.
* `Vec<T>` is `List T`; the panicking index `v[i]` is modelled by making the
  functions that use it (`SquareGrid.insert`) return an `Option`, where `none`
  is the panic.
* Logging and filesystem effects in `main` are modelled as an event trace; the
  Rust `return` statements are modelled with an explicit early-return state
  machine so that the statements that follow the unconditional
  `return Ok(())` are present in the embedding exactly as they are present
  (dead) in the source.
-/

/-- `usize::MAX` on a 64-bit target. -/
def usizeMax : Nat := 2 ^ 64 - 1

/-- Rust `q.ceil() as usize` for a finite `f64` value `q`: the saturating cast
clamps negative results to `0` and results above `usize::MAX` to
`usize::MAX`. -/
def ceilToUsize (q : ℚ) : Nat := min (Int.toNat ⌈q⌉) usizeMax

/-- `pub type Bbox = [f64; 6];` — fields `x0 … x5` stand for indices
`[0] … [5]`, i.e. `[minx, miny, minz, maxx, maxy, maxz]`. -/
structure Bbox where
  x0 : ℚ
  x1 : ℚ
  x2 : ℚ
  x3 : ℚ
  x4 : ℚ
  x5 : ℚ
deriving DecidableEq

/-- `type Cell = Vec<usize>;` -/
abbrev Cell := List Nat

/-- `pub type CellId = [usize; 2];` — the first component is `cellid[0]`
(the `row_i` of `locate_point`), the second is `cellid[1]` (`col_i`). -/
abbrev CellId := Nat × Nat

/-- `pub fn morton_encode(x: &f64, y: &f64) -> u128 { 1 }` — the space-filling
curve primitive of `spatial_structs.rs`, translated verbatim. -/
def morton_encode (x : ℚ) (y : ℚ) : Nat := 1

/-- `pub struct SquareGrid` of `spatial_structs.rs`. -/
structure SquareGrid where
  origin : ℚ × ℚ
  bbox : Bbox
  length : Nat
  cellsize : Nat
  data : List (List Cell)
  epsg : Nat
deriving DecidableEq

/-- The fixed buffer added around the extent in `SquareGrid::new`
(`let buffer = 10_f64;`). -/
def gridBuffer : ℚ := 10

/-- `SquareGrid::new(extent, cellsize, epsg)` translated from
`spatial_structs.rs` lines 76–112: pad the extent with the 10-unit buffer,
take the larger padded side, divide by the cellsize and take the ceiling to
obtain `length`, and allocate a `(length+1) × (length+1)` array of empty
cells. -/
def SquareGrid.new (extent : Bbox) (cellsize : Nat) (epsg : Nat) : SquareGrid :=
  let dx := |extent.x3 - extent.x0| + gridBuffer * 2
  let dy := |extent.x4 - extent.x1| + gridBuffer * 2
  let gridsize := if dx > dy then dx else dy
  let length := ceilToUsize (gridsize / (cellsize : ℚ))
  let row : List (List Cell) :=
    List.replicate (length + 1) (List.replicate (length + 1) ([] : Cell))
  { origin := (extent.x0 - gridBuffer, extent.x1 - gridBuffer)
    bbox := ⟨extent.x0 - gridBuffer, extent.x1 - gridBuffer, extent.x2 - gridBuffer,
             extent.x3 + gridBuffer, extent.x4 + gridBuffer, extent.x5 + gridBuffer⟩
    length := length
    cellsize := cellsize
    data := row
    epsg := epsg }

/-- `SquareGrid::locate_point` (lines 114–121): the cell index
`(ceil(dx/cellsize) as usize, ceil(dy/cellsize) as usize)` measured from the
buffered origin. -/
def SquareGrid.locate_point (g : SquareGrid) (point : ℚ × ℚ) : CellId :=
  let dx := point.1 - g.origin.1
  let dy := point.2 - g.origin.2
  let row_i := ceilToUsize (dx / (g.cellsize : ℚ))
  let col_i := ceilToUsize (dy / (g.cellsize : ℚ))
  (row_i, col_i)

/-- `SquareGrid::insert` (lines 123–127): locate the point and push the
feature id onto `data[cell_id[0]][cell_id[1]]`.  The Rust indexing panics when
the index is out of bounds; the panic is the `none` result here. -/
def SquareGrid.insert (g : SquareGrid) (point : ℚ × ℚ) (feature_id : Nat) :
    Option (SquareGrid × CellId) :=
  let cell_id := g.locate_point point
  match g.data[cell_id.1]? with
  | none => none
  | some column =>
    match column[cell_id.2]? with
    | none => none
    | some cell =>
      some ({ g with
                data := g.data.set cell_id.1 (column.set cell_id.2 (cell ++ [feature_id])) },
            cell_id)

/-- `SquareGrid::cell_bbox` (lines 173–181): purely arithmetic, no bounds
check on `cellid`. -/
def SquareGrid.cell_bbox (g : SquareGrid) (cellid : CellId) : Bbox :=
  let minx := g.origin.1 + ((cellid.1 * g.cellsize : Nat) : ℚ)
  let miny := g.origin.2 + ((cellid.2 * g.cellsize : Nat) : ℚ)
  let minz := g.bbox.x2
  let maxx := minx + (g.cellsize : ℚ)
  let maxy := miny + (g.cellsize : ℚ)
  let maxz := g.bbox.x5
  ⟨minx, miny, minz, maxx, maxy, maxz⟩

/-- Modelled from the spec: `cell(id) -> &Cell` is called on the grid from
`main.rs` but its definition is not among the provided source files; per the
spec it is a "pure lookup" that fails (panic/return error) when `id` is out of
the `(length+1)²` range.  Failure is the `none` result. -/
def SquareGrid.cell (g : SquareGrid) (cellid : CellId) : Option Cell :=
  (g.data[cellid.1]?).bind fun column => column[cellid.2]?

/-- The cell stored at `data[cellid[0]][cellid[1]]` (the indexing convention
used by `insert` and `cell_bbox`), reading `[]` out of range. -/
def cellAt (g : SquareGrid) (cellid : CellId) : Cell :=
  (g.data.getD cellid.1 []).getD cellid.2 []

/-- `cellid` addresses an actual entry of the backing array. -/
def InRangeCid (g : SquareGrid) (cellid : CellId) : Prop :=
  cellid.1 < g.data.length ∧ cellid.2 < (g.data.getD cellid.1 []).length

instance (g : SquareGrid) (cellid : CellId) : Decidable (InRangeCid g cellid) :=
  inferInstanceAs (Decidable (_ ∧ _))

/-- Folding `insert` over a list of `(centroid, feature_id)` pairs, as the
indexing stage does (one `insert` call per feature); a panic in any insertion
aborts the fold. -/
def insertAll (g : SquareGrid) : List ((ℚ × ℚ) × Nat) → Option SquareGrid
  | [] => some g
  | (p, fid) :: rest =>
    match g.insert p fid with
    | none => none
    | some (g2, _) => insertAll g2 rest

/-- Number of occurrences of `fid` in the cell `data[cellid[0]][cellid[1]]`. -/
def cellCount (g : SquareGrid) (cellid : CellId) (fid : Nat) : Nat :=
  (cellAt g cellid).count fid

/-! ## The grid iterator

`SquareGridIterator::next` (lines 204–223) holds a `row_index` and a
`col_index`; it reads `items[col_index]` (calling it "column"), then the entry
at `row_index` inside it, yields `([row_index, col_index], cell)` and bumps
`row_index`; at the end of an inner list it resets `row_index` and bumps
`col_index`; it stops when `col_index` runs off `items`.  `iterGo` is this
state machine run to completion, producing the list of yielded items. -/

def iterGo (items : List (List Cell)) (row_index : Nat) (col_index : Nat) :
    List (CellId × Cell) :=
  match hcol : items[col_index]? with
  | some column =>
    match hcell : column[row_index]? with
    | some cell => ((row_index, col_index), cell) :: iterGo items (row_index + 1) col_index
    | none => iterGo items 0 (col_index + 1)
  | none => []
termination_by (items.length - col_index, (items.getD col_index []).length - row_index)
decreasing_by
  · apply Prod.Lex.right
    have hlen : col_index < items.length := by
      by_contra hge
      rw [List.getElem?_eq_none (Nat.le_of_not_lt hge)] at hcol
      exact Option.noConfusion hcol
    have hgetd : items.getD col_index [] = column := by
      rw [List.getD_eq_getElem?_getD, hcol, Option.getD_some]
    rw [hgetd]
    have hrow : row_index < column.length := by
      by_contra hge
      rw [List.getElem?_eq_none (Nat.le_of_not_lt hge)] at hcell
      exact Option.noConfusion hcell
    omega
  · apply Prod.Lex.left
    have hlen : col_index < items.length := by
      by_contra hge
      rw [List.getElem?_eq_none (Nat.le_of_not_lt hge)] at hcol
      exact Option.noConfusion hcol
    omega

/-- Iterating a grid (`impl IntoIterator for &SquareGrid`, lines 185–196):
start at `row_index = 0`, `col_index = 0` over `self.data`. -/
def SquareGrid.iter (g : SquareGrid) : List (CellId × Cell) :=
  iterGo g.data 0 0

/-! ## The NaN-aware value model for `SquareGrid::new`

`FVal` is an `f64` that is either finite (modelled exactly by a rational) or
NaN.  The operations below implement the IEEE rules used in
`SquareGrid::new`: every arithmetic operation with a NaN operand produces NaN,
ordered comparison with a NaN operand is false, and `NaN as usize` saturates
to `0`.  Division is only ever performed by the (finite, nonzero) cellsize in
`new`, so the infinite quotients of IEEE arithmetic do not arise; theorems
over this model accordingly assume a positive cellsize. -/

abbrev FVal := Option ℚ

def FVal.sub : FVal → FVal → FVal
  | some a, some b => some (a - b)
  | _, _ => none

def FVal.add : FVal → FVal → FVal
  | some a, some b => some (a + b)
  | _, _ => none

def FVal.abs : FVal → FVal
  | some a => some |a|
  | none => none

def FVal.gt : FVal → FVal → Bool
  | some a, some b => decide (a > b)
  | _, _ => false

def FVal.divFin : FVal → ℚ → FVal
  | some a, b => some (a / b)
  | none, _ => none

/-- `.ceil() as usize` on a possibly-NaN value: NaN casts to `0`. -/
def FVal.ceilCast : FVal → Nat
  | some q => ceilToUsize q
  | none => 0

/-- A `Bbox` whose entries may be NaN. -/
structure BboxF where
  x0 : FVal
  x1 : FVal
  x2 : FVal
  x3 : FVal
  x4 : FVal
  x5 : FVal

/-- `SquareGrid` as produced from possibly-NaN inputs. -/
structure SquareGridF where
  origin : FVal × FVal
  bbox : BboxF
  length : Nat
  cellsize : Nat
  data : List (List Cell)
  epsg : Nat

/-- `SquareGrid::new` translated over the NaN-aware value model; the
statement sequence is identical to `SquareGrid.new` above. -/
def SquareGridF.new (extent : BboxF) (cellsize : Nat) (epsg : Nat) : SquareGridF :=
  let buf : FVal := some gridBuffer
  let dx := (FVal.sub extent.x3 extent.x0).abs.add (some (gridBuffer * 2))
  let dy := (FVal.sub extent.x4 extent.x1).abs.add (some (gridBuffer * 2))
  let gridsize := if dx.gt dy then dx else dy
  let length := (gridsize.divFin (cellsize : ℚ)).ceilCast
  let row : List (List Cell) :=
    List.replicate (length + 1) (List.replicate (length + 1) ([] : Cell))
  { origin := (FVal.sub extent.x0 buf, FVal.sub extent.x1 buf)
    bbox := ⟨FVal.sub extent.x0 buf, FVal.sub extent.x1 buf, FVal.sub extent.x2 buf,
             FVal.add extent.x3 buf, FVal.add extent.x4 buf, FVal.add extent.x5 buf⟩
    length := length
    cellsize := cellsize
    data := row
    epsg := epsg }

/-! ## Model of the tail of `main` (`main.rs`, lines 151–361)

Logging and filesystem actions are events; the two Rust `return` statements
are modelled by an early-return state machine (`runStmt` skips every
remaining statement once `retval` is set), so the per-tile export phase that
follows the unconditional `return Ok(())` of line 168 is present in the
embedded statement list exactly as it is present in the source. -/

inductive Event where
  | infoGeneratingTileset
  | writeTileset
  | makeImplicit
  | ensuredTilesDir
  | ensuredInputsDir
  | infoExporting (n : Nat)
  | wroteInputManifest (tid : Nat)
  | errorGeneratorFailed (tid : Nat) (stdout : String) (stderr : String)
  | debugGeneratorStdout (tid : Nat) (stdout : String)
  | errorOutputMissing (tid : Nat)
  | errorGeneratorPopen (tid : Nat)
  | errorOptimizerFailed (tid : Nat) (stdout : String) (stderr : String)
  | debugOptimizerStdout (tid : Nat) (stdout : String)
  | errorOptimizerPopen (tid : Nat)
  | debugTileEmpty (tid : Nat)
  | infoDone
  | removedInputsDir
deriving DecidableEq

/-- What `cmd.capture()` produced: either captured data (exit status plus the
captured output streams) or a `PopenError`. -/
inductive SubprocessResult where
  | ok (success : Bool) (stdout : String) (stderr : String)
  | popenError
deriving DecidableEq

/-- One tile of the parallel export loop, together with the outcomes of the
external-world interactions its closure performs: the generator subprocess
capture, whether the generator's output file exists afterwards, and the
optimizer subprocess capture. -/
structure TileRun where
  tid : Nat
  nrItems : Nat
  genResult : SubprocessResult
  outputExists : Bool
  optResult : SubprocessResult
deriving DecidableEq

/-- The per-run export configuration: whether `cli.exe_gltfpack` is set (the
format is always `3DTiles` at this point — the `CityJSON` arm of the argument
parsing panics). -/
structure ExportConfig where
  gltfpackSet : Bool
deriving DecidableEq

/-- The body of the `tiles.into_par_iter().for_each(|tile| …)` closure
(`main.rs` lines 199–355), as the list of events it logs.  Failure of the
generator or the optimizer only appends `error…` events; the closure has no
failure channel of its own. -/
def exportTile (cfg : ExportConfig) (t : TileRun) : List Event :=
  if 0 < t.nrItems then
    [Event.wroteInputManifest t.tid] ++
    (match t.genResult with
     | SubprocessResult.ok success stdout stderr =>
         (if success = false then
            [Event.errorGeneratorFailed t.tid stdout stderr]
          else if stdout ≠ "" ∧ stdout ≠ "\n" then
            [Event.debugGeneratorStdout t.tid stdout]
          else []) ++
         (if t.outputExists = false then [Event.errorOutputMissing t.tid] else [])
     | SubprocessResult.popenError => [Event.errorGeneratorPopen t.tid]) ++
    (if cfg.gltfpackSet then
       match t.optResult with
       | SubprocessResult.ok success stdout stderr =>
           if success = false then [Event.errorOptimizerFailed t.tid stdout stderr]
           else if stdout ≠ "" ∧ stdout ≠ "\n" then
             [Event.debugOptimizerStdout t.tid stdout]
           else []
       | SubprocessResult.popenError => [Event.errorOptimizerPopen t.tid]
     else [])
  else [Event.debugTileEmpty t.tid]

/-- The whole parallel export phase.  The event interleaving of the rayon
worker pool is modelled in tile order; the claims proved about it do not
depend on the interleaving. -/
def exportPhase (cfg : ExportConfig) (tiles : List TileRun) : List Event :=
  tiles.flatMap (exportTile cfg)

inductive MainResult where
  | ok
  | err
deriving DecidableEq

/-- Execution state of `main`: the value of an executed `return` statement
(if one has executed) and the logged events so far. -/
structure MainState where
  retval : Option MainResult
  events : List Event
deriving DecidableEq

def emit (s : MainState) (es : List Event) : MainState :=
  { s with events := s.events ++ es }

/-- Run one statement unless a `return` has already executed. -/
def runStmt (s : MainState) (stmt : MainState → MainState) : MainState :=
  match s.retval with
  | some _ => s
  | none => stmt s

/-- The run parameters the tail of `main` consumes: whether
`tileset.to_file` succeeds, the export configuration, the flattened tile
list with each tile's subprocess outcomes, whether debug logging is enabled,
and whether the final `remove_dir_all` succeeds. -/
structure MainCfg where
  toFileOk : Bool
  exportCfg : ExportConfig
  tiles : List TileRun
  debugEnabled : Bool
  removeInputsOk : Bool
deriving DecidableEq

/-- The statements of `main` from line 151 to the end, in source order.
Statement 4 is the `return Ok(());` of line 168; statements 5–11 are the
per-tile export phase and its epilogue (lines 170–360). -/
def mainTailStmts (cfg : MainCfg) : List (MainState → MainState) :=
  [ fun s => emit s [Event.infoGeneratingTileset],
    fun s =>
      if cfg.toFileOk then emit s [Event.writeTileset]
      else { s with retval := some MainResult.err },
    fun s => emit s [Event.makeImplicit],
    fun s => { s with retval := some MainResult.ok },
    fun s => emit s [Event.ensuredTilesDir],
    fun s => emit s [Event.ensuredInputsDir],
    fun s => emit s [Event.infoExporting cfg.tiles.length],
    fun s => emit s (exportPhase cfg.exportCfg cfg.tiles),
    fun s => emit s [Event.infoDone],
    fun s =>
      if cfg.debugEnabled then s
      else if cfg.removeInputsOk then emit s [Event.removedInputsDir]
      else { s with retval := some MainResult.err },
    fun s => { s with retval := some MainResult.ok } ]

/-- Executing the tail of `main`: fold the statements with early-return
semantics and read off the result and the event trace. -/
def mainTail (cfg : MainCfg) : MainResult × List Event :=
  let s := (mainTailStmts cfg).foldl runStmt ⟨none, []⟩
  (s.retval.getD MainResult.ok, s.events)

/-- The extent of end-to-end scenario A and of the repository's
`test_locate_point`. -/
def extentA : Bbox := ⟨0, 0, 0, 4, 4, 4⟩

/-- The grid of `test_locate_point`: `SquareGrid::new(&[0,0,0,4,4,4], 1, 0)`. -/
def gridA : SquareGrid := SquareGrid.new extentA 1 0

/-- A small asymmetric extent for exercising the iterator. -/
def extentB : Bbox := ⟨0, 0, 0, 1, 1, 1⟩

def gridB0 : SquareGrid := SquareGrid.new extentB 15 0

/-- `gridB0` with feature `42` inserted at `(7, -8)` (located cell `(2, 1)`). -/
def gridB : SquareGrid := (gridB0.insert (7, -8) 42).elim gridB0 Prod.fst

/-- An all-NaN extent. -/
def nanExtent : BboxF := ⟨none, none, none, none, none, none⟩

/-- A tile whose generator invocation exits non-zero and whose output file is
missing. -/
def tileRunFail : TileRun :=
  ⟨3, 2, SubprocessResult.ok false "boom" "", false, SubprocessResult.ok true "" ""⟩

/-- A tile whose generator succeeds. -/
def tileRunOk : TileRun :=
  ⟨4, 1, SubprocessResult.ok true "" "", true, SubprocessResult.ok true "" ""⟩

/-- A run configuration: tileset written, optimizer configured, one failing
and one succeeding tile. -/
def mainCfgA : MainCfg := ⟨true, ⟨true⟩, [tileRunFail, tileRunOk], false, true⟩

/-- A log line that reports a generator failure for tile `tid`: non-zero
exit, missing output file, or a popen failure. -/
def GenFailureLog (tid : Nat) (e : Event) : Prop :=
  (∃ stdout stderr, e = Event.errorGeneratorFailed tid stdout stderr) ∨
  e = Event.errorOutputMissing tid ∨ e = Event.errorGeneratorPopen tid

/-- The insertion list of the C5 witness. -/
def insertsA : List ((ℚ × ℚ) × Nat) := [((5/2, 3/2), 42)]

/-- Evaluate `ceilToUsize` at a value with a known ceiling below the
saturation bound. -/
theorem ceilToUsize_eq_of {q : ℚ} {n : Nat} (h1 : (n : ℚ) - 1 < q) (h2 : q ≤ (n : ℚ))
    (hn : n ≤ usizeMax) : ceilToUsize q = n := by
  have hc : ⌈q⌉ = (n : ℤ) := by
    rw [Int.ceil_eq_iff]
    refine ⟨by push_cast; exact h1, by push_cast; exact h2⟩
  rw [ceilToUsize, hc, Int.toNat_natCast, min_eq_left hn]

/-- Nonpositive values saturate to `0` under the `as usize` cast. -/
theorem ceilToUsize_eq_zero {q : ℚ} (h : q ≤ 0) : ceilToUsize q = 0 := by
  have hc : ⌈q⌉ ≤ 0 := Int.ceil_le.mpr (by exact_mod_cast h)
  rw [ceilToUsize, Int.toNat_of_nonpos hc]
  simp

/-- The saturating cast is monotone. -/
theorem ceilToUsize_mono {q r : ℚ} (h : q ≤ r) : ceilToUsize q ≤ ceilToUsize r := by
  unfold ceilToUsize
  exact min_le_min (Int.toNat_le_toNat (Int.ceil_le_ceil h)) le_rfl

/-! ## Unfolding lemmas and characterization of the grid iterator -/

theorem iterGo_of_none {items : List (List Cell)} {row col : Nat}
    (h : items[col]? = none) : iterGo items row col = [] := by
  rw [iterGo.eq_def, h]

theorem iterGo_yield {items : List (List Cell)} {row col : Nat} {column : List Cell}
    {cell : Cell} (hcol : items[col]? = some column) (hcell : column[row]? = some cell) :
    iterGo items row col = ((row, col), cell) :: iterGo items (row + 1) col := by
  rw [iterGo.eq_def, hcol]
  split
  · rename_i cell2 hc2
    injection hc2 with h
    subst h
    split
    · rename_i cell3 hc3
      rw [hcell] at hc3
      injection hc3 with h3
      subst h3
      rfl
    · rename_i hc3
      rw [hcell] at hc3
      exact Option.noConfusion hc3
  · rename_i hc2
    exact Option.noConfusion hc2

theorem iterGo_advance {items : List (List Cell)} {row col : Nat} {column : List Cell}
    (hcol : items[col]? = some column) (hcell : column[row]? = none) :
    iterGo items row col = iterGo items 0 (col + 1) := by
  rw [iterGo.eq_def, hcol]
  split
  · rename_i cell2 hc2
    injection hc2 with h
    subst h
    split
    · rename_i cell3 hc3
      rw [hcell] at hc3
      exact Option.noConfusion hc3
    · rfl
  · rename_i hc2
    exact Option.noConfusion hc2

theorem iterGo_column {items : List (List Cell)} {col : Nat} {column : List Cell}
    (hcol : items[col]? = some column) :
    ∀ row, iterGo items row col =
      ((List.range (column.length - row)).map
        (fun i => ((row + i, col), column.getD (row + i) []))) ++
      iterGo items 0 (col + 1) := by
  suffices H : ∀ k row, column.length - row = k →
      iterGo items row col =
        ((List.range (column.length - row)).map
          (fun i => ((row + i, col), column.getD (row + i) []))) ++
        iterGo items 0 (col + 1) by
    intro row; exact H _ row rfl
  intro k
  induction k with
  | zero =>
    intro row hk
    have hle : column.length ≤ row := Nat.le_of_sub_eq_zero hk
    rw [iterGo_advance hcol (List.getElem?_eq_none hle), hk]
    simp
  | succ n ih =>
    intro row hk
    have hrow : row < column.length := by
      omega
    rw [iterGo_yield hcol (List.getElem?_eq_getElem hrow), ih (row + 1) (by omega), hk,
      List.range_succ_eq_map, List.map_cons, List.map_map, List.cons_append]
    congr 1
    · simp [List.getElem?_eq_getElem hrow, List.getD_eq_getElem?_getD]
    · congr 1
      have hsub : column.length - (row + 1) = n := by
        omega
      rw [hsub]
      apply List.map_congr_left
      intro i _
      have harith : row + 1 + i = row + (i + 1) := by
        omega
      simp [Function.comp, harith]

theorem iterGo_from {items : List (List Cell)} :
    ∀ k col, items.length - col = k →
      iterGo items 0 col =
        (List.range' col (items.length - col)).flatMap
          (fun c => (List.range ((items.getD c []).length)).map
            (fun r => ((r, c), (items.getD c []).getD r []))) := by
  intro k
  induction k with
  | zero =>
    intro col hk
    have hle : items.length ≤ col := Nat.le_of_sub_eq_zero hk
    rw [iterGo_of_none (List.getElem?_eq_none hle), hk]
    simp
  | succ n ih =>
    intro col hk
    have hcollt : col < items.length := by
      omega
    have hcol : items[col]? = some items[col] := List.getElem?_eq_getElem hcollt
    rw [iterGo_column hcol 0, ih (col + 1) (by omega), hk, List.range'_succ,
      List.flatMap_cons, List.getD_eq_getElem items [] hcollt]
    simp only [Nat.sub_zero, Nat.zero_add, Nat.add_sub_cancel]
    have hsub : items.length - (col + 1) = n := by
      omega
    rw [hsub]

/-- The complete characterization of grid iteration: one pair per entry of
the backing array, outer loop over the outer index of `data`, and the yielded
id pairs the inner index first — so the pair at id `(r, c)` carries the cell
`data[c][r]`, i.e. `cellAt g (c, r)`. -/
theorem SquareGrid.iter_eq (g : SquareGrid) :
    g.iter = (List.range g.data.length).flatMap
      (fun c => (List.range ((g.data.getD c []).length)).map
        (fun r => ((r, c), cellAt g (c, r)))) := by
  rw [SquareGrid.iter, iterGo_from g.data.length 0 (by omega), Nat.sub_zero,
    List.range_eq_range']
  rfl

/-! ## Lemmas about `insert` -/

theorem getD_set_eq {α : Type} {l : List α} {i : Nat} (a d : α) (h : i < l.length) :
    (l.set i a).getD i d = a := by
  rw [List.getD_eq_getElem?_getD, List.getElem?_set_eq_of_lt _ h, Option.getD_some]

theorem getD_set_ne {α : Type} {l : List α} {i j : Nat} (h : i ≠ j) (a d : α) :
    (l.set i a).getD j d = l.getD j d := by
  rw [List.getD_eq_getElem?_getD, List.getElem?_set_ne h, ← List.getD_eq_getElem?_getD]

/-- `locate_point` reads only the origin and the cellsize, so it is stable
under insertion. -/
theorem SquareGrid.locate_congr {g2 g : SquareGrid} (ho : g2.origin = g.origin)
    (hc : g2.cellsize = g.cellsize) (p : ℚ × ℚ) :
    g2.locate_point p = g.locate_point p := by
  unfold SquareGrid.locate_point
  rw [ho, hc]

/-- Complete description of a successful `insert`: when the located cell id
addresses an entry of the backing array, `insert` returns that id, appends the
feature id to exactly that cell, changes no other cell, and leaves every other
field and the array dimensions unchanged. -/
theorem SquareGrid.insert_spec (g : SquareGrid) (p : ℚ × ℚ) (fid : Nat)
    (h : InRangeCid g (g.locate_point p)) :
    ∃ g2, g.insert p fid = some (g2, g.locate_point p) ∧
      g2.origin = g.origin ∧ g2.cellsize = g.cellsize ∧ g2.length = g.length ∧
      g2.bbox = g.bbox ∧ g2.epsg = g.epsg ∧
      g2.data.length = g.data.length ∧
      (∀ i, (g2.data.getD i []).length = (g.data.getD i []).length) ∧
      cellAt g2 (g.locate_point p) = cellAt g (g.locate_point p) ++ [fid] ∧
      (∀ cid, cid ≠ g.locate_point p → cellAt g2 cid = cellAt g cid) ∧
      (∀ cid fid2, cellCount g2 cid fid2 =
        cellCount g cid fid2 + (if cid = g.locate_point p ∧ fid2 = fid then 1 else 0)) := by
  obtain ⟨h1, h2⟩ := h
  have hgd : g.data.getD (g.locate_point p).1 [] = g.data[(g.locate_point p).1] :=
    List.getD_eq_getElem g.data [] h1
  have h2' : (g.locate_point p).2 < g.data[(g.locate_point p).1].length := by
    rw [← hgd]; exact h2
  have hcol : g.data[(g.locate_point p).1]? = some g.data[(g.locate_point p).1] :=
    List.getElem?_eq_getElem h1
  have hcell : g.data[(g.locate_point p).1][(g.locate_point p).2]? =
      some g.data[(g.locate_point p).1][(g.locate_point p).2] :=
    List.getElem?_eq_getElem h2'
  refine ⟨{ g with
              data := g.data.set (g.locate_point p).1
                ((g.data[(g.locate_point p).1]).set (g.locate_point p).2
                  (g.data[(g.locate_point p).1][(g.locate_point p).2] ++ [fid])) },
          ?_, rfl, rfl, rfl, rfl, rfl, ?_, ?_, ?_, ?_, ?_⟩
  · simp only [SquareGrid.insert, hcol, hcell]
  · simp [List.length_set]
  · intro i
    by_cases hi : (g.locate_point p).1 = i
    · subst hi
      rw [getD_set_eq _ _ h1, List.length_set, hgd]
    · rw [getD_set_ne hi]
  · simp only [cellAt]
    rw [getD_set_eq _ _ h1, getD_set_eq _ _ h2', hgd, List.getD_eq_getElem?_getD, hcell,
      Option.getD_some]
  · intro cid hcid
    obtain ⟨a, b⟩ := cid
    simp only [cellAt]
    by_cases ha : (g.locate_point p).1 = a
    · subst ha
      rw [getD_set_eq _ _ h1]
      have hb : ¬((g.locate_point p).2 = b) := by
        intro hbe
        apply hcid
        rw [← hbe]
      rw [getD_set_ne hb, hgd]
    · rw [getD_set_ne ha]
  · intro cid fid2
    obtain ⟨a, b⟩ := cid
    simp only [cellCount, cellAt]
    by_cases ha : (g.locate_point p).1 = a
    · subst ha
      rw [getD_set_eq _ _ h1]
      by_cases hb : (g.locate_point p).2 = b
      · subst hb
        rw [getD_set_eq _ _ h2', List.count_append, hgd, List.getD_eq_getElem?_getD, hcell,
          Option.getD_some, List.count_singleton]
        by_cases hf : fid2 = fid
        · simp [hf]
        · have hq : ¬((fid : Nat) == fid2) = true := by
            simp [Ne.symm hf]
          simp [hf, hq]
      · rw [getD_set_ne hb, hgd]
        have hne : ((g.locate_point p).1, b) ≠ g.locate_point p := by
          intro hcontra
          exact hb (congrArg Prod.snd hcontra).symm
        simp [hne]
    · rw [getD_set_ne ha]
      have hne : ((a : Nat), b) ≠ g.locate_point p := by
        intro hcontra
        exact ha (congrArg Prod.fst hcontra).symm
      simp [hne]

/-! ## Lemmas about freshly constructed grids -/

theorem getD_replicate {α : Type} (n i : Nat) (a d : α) :
    (List.replicate n a).getD i d = if i < n then a else d := by
  rw [List.getD_eq_getElem?_getD, List.getElem?_replicate]
  split <;> rfl

theorem getD_getD_replicate (n i j : Nat) :
    ((List.replicate n (List.replicate n ([] : Cell))).getD i []).getD j [] = [] := by
  rw [getD_replicate]
  split
  · rw [getD_replicate]
    split <;> rfl
  · rfl

/-- A fresh grid has every cell empty. -/
theorem cellCount_new (extent : Bbox) (cs epsg : Nat) (cid : CellId) (fid : Nat) :
    cellCount (SquareGrid.new extent cs epsg) cid fid = 0 := by
  have hdata : (SquareGrid.new extent cs epsg).data =
      List.replicate ((SquareGrid.new extent cs epsg).length + 1)
        (List.replicate ((SquareGrid.new extent cs epsg).length + 1) ([] : Cell)) := rfl
  simp only [cellCount, cellAt, hdata, getD_getD_replicate]
  rfl

theorem new_data_length (extent : Bbox) (cs epsg : Nat) :
    (SquareGrid.new extent cs epsg).data.length = (SquareGrid.new extent cs epsg).length + 1 :=
  List.length_replicate _ _

/-- Division by the (positive) cellsize and the saturating ceiling cast
preserve order. -/
theorem ceilToUsize_div_le {a b c : ℚ} (hc : 0 < c) (h : a ≤ b) :
    ceilToUsize (a / c) ≤ ceilToUsize (b / c) :=
  ceilToUsize_mono ((div_le_div_iff_of_pos_right hc).mpr h)

/-- A point inside the (unbuffered) extent is located at a cell id within the
`(length+1) × (length+1)` backing array of the grid built on that extent. -/
theorem new_locate_inRange (extent : Bbox) {cs : Nat} (hcs : 0 < cs) (epsg : Nat)
    {p : ℚ × ℚ} (hx1 : extent.x0 ≤ p.1) (hx2 : p.1 ≤ extent.x3)
    (hy1 : extent.x1 ≤ p.2) (hy2 : p.2 ≤ extent.x4) :
    InRangeCid (SquareGrid.new extent cs epsg) ((SquareGrid.new extent cs epsg).locate_point p) := by
  have hcsQ : (0 : ℚ) < ((cs : Nat) : ℚ) := by
    exact_mod_cast hcs
  have habs3 : extent.x3 - extent.x0 ≤ |extent.x3 - extent.x0| := le_abs_self _
  have habs4 : extent.x4 - extent.x1 ≤ |extent.x4 - extent.x1| := le_abs_self _
  have hAG : |extent.x3 - extent.x0| + gridBuffer * 2 ≤
      (if |extent.x3 - extent.x0| + gridBuffer * 2 > |extent.x4 - extent.x1| + gridBuffer * 2
       then |extent.x3 - extent.x0| + gridBuffer * 2
       else |extent.x4 - extent.x1| + gridBuffer * 2) := by
    split
    · exact le_rfl
    · next hgt => exact le_of_not_lt hgt
  have hBG : |extent.x4 - extent.x1| + gridBuffer * 2 ≤
      (if |extent.x3 - extent.x0| + gridBuffer * 2 > |extent.x4 - extent.x1| + gridBuffer * 2
       then |extent.x3 - extent.x0| + gridBuffer * 2
       else |extent.x4 - extent.x1| + gridBuffer * 2) := by
    split
    · next hgt => exact le_of_lt hgt
    · exact le_rfl
  have hx : p.1 - (extent.x0 - gridBuffer) ≤
      (if |extent.x3 - extent.x0| + gridBuffer * 2 > |extent.x4 - extent.x1| + gridBuffer * 2
       then |extent.x3 - extent.x0| + gridBuffer * 2
       else |extent.x4 - extent.x1| + gridBuffer * 2) := by
    refine le_trans ?_ hAG
    simp only [gridBuffer]
    linarith
  have hy : p.2 - (extent.x1 - gridBuffer) ≤
      (if |extent.x3 - extent.x0| + gridBuffer * 2 > |extent.x4 - extent.x1| + gridBuffer * 2
       then |extent.x3 - extent.x0| + gridBuffer * 2
       else |extent.x4 - extent.x1| + gridBuffer * 2) := by
    refine le_trans ?_ hBG
    simp only [gridBuffer]
    linarith
  have hr1 : ((SquareGrid.new extent cs epsg).locate_point p).1 ≤
      (SquareGrid.new extent cs epsg).length := by
    simp only [SquareGrid.locate_point, SquareGrid.new]
    exact ceilToUsize_div_le hcsQ hx
  have hr2 : ((SquareGrid.new extent cs epsg).locate_point p).2 ≤
      (SquareGrid.new extent cs epsg).length := by
    simp only [SquareGrid.locate_point, SquareGrid.new]
    exact ceilToUsize_div_le hcsQ hy
  constructor
  · rw [new_data_length]
    omega
  · have hcol : ((SquareGrid.new extent cs epsg).data.getD
        ((SquareGrid.new extent cs epsg).locate_point p).1 []).length =
        (SquareGrid.new extent cs epsg).length + 1 := by
      have hlt : ((SquareGrid.new extent cs epsg).locate_point p).1 <
          (SquareGrid.new extent cs epsg).length + 1 := by
        omega
      show ((List.replicate ((SquareGrid.new extent cs epsg).length + 1)
          (List.replicate ((SquareGrid.new extent cs epsg).length + 1) ([] : Cell))).getD
            ((SquareGrid.new extent cs epsg).locate_point p).1 []).length = _
      rw [getD_replicate, if_pos hlt, List.length_replicate]
    rw [hcol]
    omega

/-- Folding `insert` over distinct, in-range, previously-unseen feature ids:
every inserted id ends up in exactly the cell located for its point, exactly
once, and ids not inserted keep their counts. -/
theorem insertAll_spec (l : List ((ℚ × ℚ) × Nat)) :
    ∀ (g : SquareGrid),
      (∀ pf ∈ l, InRangeCid g (g.locate_point pf.1)) →
      (l.map Prod.snd).Nodup →
      (∀ pf ∈ l, ∀ cid, cellCount g cid pf.2 = 0) →
      ∃ g2, insertAll g l = some g2 ∧ g2.origin = g.origin ∧ g2.cellsize = g.cellsize ∧
        (∀ pf ∈ l, cellCount g2 (g.locate_point pf.1) pf.2 = 1 ∧
          ∀ cid, cid ≠ g.locate_point pf.1 → cellCount g2 cid pf.2 = 0) ∧
        (∀ fid, fid ∉ l.map Prod.snd → ∀ cid, cellCount g2 cid fid = cellCount g cid fid) := by
  induction l with
  | nil =>
    intro g _ _ _
    exact ⟨g, rfl, rfl, rfl, by simp, fun fid _ cid => rfl⟩
  | cons hd tl ih =>
    intro g hin hnodup hfresh
    obtain ⟨p, fid⟩ := hd
    have hinhd := hin (p, fid) (List.mem_cons_self _ _)
    obtain ⟨g1, hins, ho, hc, hl, hb, he, hdlen, hcollen, happend, hother, hcount⟩ :=
      g.insert_spec p fid hinhd
    have hstep : insertAll g ((p, fid) :: tl) = insertAll g1 tl := by
      simp only [insertAll, hins]
    have hloc1 : ∀ q, g1.locate_point q = g.locate_point q :=
      SquareGrid.locate_congr ho hc
    have hin1 : ∀ pf ∈ tl, InRangeCid g1 (g1.locate_point pf.1) := by
      intro pf hpf
      have hold := hin pf (List.mem_cons_of_mem _ hpf)
      rw [hloc1]
      exact ⟨by rw [hdlen]; exact hold.1, by rw [hcollen]; exact hold.2⟩
    have hmapcons : ((p, fid) :: tl).map Prod.snd = fid :: tl.map Prod.snd := rfl
    rw [hmapcons] at hnodup
    have hfidnot : fid ∉ tl.map Prod.snd := (List.nodup_cons.mp hnodup).1
    have hnodup1 : (tl.map Prod.snd).Nodup := (List.nodup_cons.mp hnodup).2
    have hfresh1 : ∀ pf ∈ tl, ∀ cid, cellCount g1 cid pf.2 = 0 := by
      intro pf hpf cid
      rw [hcount]
      have h0 := hfresh pf (List.mem_cons_of_mem _ hpf) cid
      have hne : ¬(cid = g.locate_point p ∧ pf.2 = fid) := by
        rintro ⟨-, h2eq⟩
        exact hfidnot (h2eq ▸ List.mem_map_of_mem Prod.snd hpf)
      simp [h0, hne]
    obtain ⟨g2, hall, ho2, hc2, hdone, huntouched⟩ := ih g1 hin1 hnodup1 hfresh1
    refine ⟨g2, by rw [hstep]; exact hall, by rw [ho2, ho], by rw [hc2, hc], ?_, ?_⟩
    · intro pf hpf
      rcases List.mem_cons.mp hpf with heq | hmem
      · subst heq
        constructor
        · rw [huntouched fid hfidnot (g.locate_point p), hcount]
          have h0 := hfresh (p, fid) (List.mem_cons_self _ _) (g.locate_point p)
          simp [h0]
        · intro cid hcid
          rw [huntouched fid hfidnot cid, hcount]
          have h0 := hfresh (p, fid) (List.mem_cons_self _ _) cid
          simp [h0, hcid]
      · have hd2 := hdone pf hmem
        rw [hloc1] at hd2
        exact hd2
    · intro fid2 hnot cid
      have hnot1 : fid2 ∉ tl.map Prod.snd := by
        intro hmem
        exact hnot (by rw [hmapcons]; exact List.mem_cons_of_mem _ hmem)
      have hne2 : ¬(fid2 = fid) := by
        intro heq
        exact hnot (by rw [hmapcons, heq]; exact List.mem_cons_self _ _)
      rw [huntouched fid2 hnot1 cid, hcount]
      simp [hne2]

theorem gridA_length : gridA.length = 24 := by
  simp only [gridA, extentA, SquareGrid.new, gridBuffer]
  norm_num
  exact ceilToUsize_eq_of (by norm_num) (by norm_num) (by norm_num [usizeMax])

theorem gridA_locate : gridA.locate_point (5/2, 3/2) = (13, 12) := by
  simp only [gridA, extentA, SquareGrid.locate_point, SquareGrid.new, gridBuffer, Prod.mk.injEq]
  refine ⟨ceilToUsize_eq_of ?_ ?_ ?_, ceilToUsize_eq_of ?_ ?_ ?_⟩ <;> norm_num [usizeMax]

theorem gridA_data_length : gridA.data.length = 25 := by
  show (SquareGrid.new extentA 1 0).data.length = 25
  rw [new_data_length]
  show gridA.length + 1 = 25
  rw [gridA_length]

theorem gridA_origin : gridA.origin = (-10, -10) := by
  show ((extentA.x0 - gridBuffer, extentA.x1 - gridBuffer) : ℚ × ℚ) = (-10, -10)
  norm_num [extentA, gridBuffer]

/-- `(30, 0)` is outside the `25 × 25` backing array of `gridA`. -/
theorem gridA_cid_out : ¬ InRangeCid gridA (30, 0) := by
  intro hcontra
  have h1 := hcontra.1
  rw [gridA_data_length] at h1
  omega

theorem gridB0_length : gridB0.length = 2 := by
  simp only [gridB0, extentB, SquareGrid.new, gridBuffer]
  norm_num
  exact ceilToUsize_eq_of (by norm_num) (by norm_num) (by norm_num [usizeMax])

theorem gridB0_data : gridB0.data = [[[], [], []], [[], [], []], [[], [], []]] := by
  show List.replicate (gridB0.length + 1) (List.replicate (gridB0.length + 1) ([] : Cell)) = _
  rw [gridB0_length]
  rfl

theorem gridB0_locate : gridB0.locate_point (7, -8) = (2, 1) := by
  simp only [gridB0, extentB, SquareGrid.locate_point, SquareGrid.new, gridBuffer, Prod.mk.injEq]
  refine ⟨ceilToUsize_eq_of ?_ ?_ ?_, ceilToUsize_eq_of ?_ ?_ ?_⟩ <;> norm_num [usizeMax]

theorem gridB_data : gridB.data = [[[], [], []], [[], [], []], [[], [42], []]] := by
  have hcol : gridB0.data[(2 : Nat)]? = some [[], [], []] := by
    rw [gridB0_data]
    rfl
  have hcell : ([[], [], []] : List Cell)[(1 : Nat)]? = some [] := rfl
  have hins : gridB0.insert (7, -8) 42 =
      some ({ gridB0 with
                data := gridB0.data.set 2 (([[], [], []] : List Cell).set 1 ([] ++ [42])) },
            (2, 1)) := by
    simp only [SquareGrid.insert, gridB0_locate, hcol, hcell]
  show ((gridB0.insert (7, -8) 42).elim gridB0 Prod.fst).data = _
  rw [hins]
  simp only [Option.elim]
  rw [gridB0_data]
  rfl

/-- C1 (code_bug evaluation): for extent `[0,0,0,4,4,4]` and cellsize 1 the
code produces `length = 24` — not 5 — and locates the point `(2.5, 1.5)` at
cell `(13, 12)` — not `(3, 2)`: the 10-unit buffer moves the origin to
`(-10, -10)`, contradicting the doc-comment example and the repository's own
`test_locate_point`, which assert `(3, 2)`. -/
theorem c1_scenarioA_code_behaviour :
    gridA.length = 24 ∧ gridA.locate_point (5/2, 3/2) = (13, 12) ∧
    gridA.length ≠ 5 ∧ gridA.locate_point (5/2, 3/2) ≠ (3, 2) := by
  refine ⟨gridA_length, gridA_locate, ?_, ?_⟩
  · rw [gridA_length]
    norm_num
  · rw [gridA_locate]
    decide

/-- C2: `morton_encode` returns the constant `1` for every pair of inputs;
the space-filling ordering primitive is a stub. -/
theorem c2_morton_encode_constant_stub :
    ∀ x y x2 y2 : ℚ, morton_encode x y = morton_encode x2 y2 ∧ morton_encode x y = 1 :=
  fun _ _ _ _ => ⟨rfl, rfl⟩

/-- C3: on every run on which the tileset write succeeds, `main` returns
`Ok` right after writing the tileset and calling `make_implicit`: the event
trace is exactly `[infoGeneratingTileset, writeTileset, makeImplicit]`, so no
statement of the per-tile export phase (directory creation, input manifests,
generator or optimizer invocations) ever executes. -/
theorem c3_main_returns_before_export_phase (cfg : MainCfg) (h : cfg.toFileOk = true) :
    mainTail cfg = (MainResult.ok,
      [Event.infoGeneratingTileset, Event.writeTileset, Event.makeImplicit]) := by
  simp [mainTail, mainTailStmts, runStmt, emit, h]

/-- Witness for C3 at the concrete configuration `mainCfgA`. -/
theorem c3_witness :
    mainCfgA.toFileOk = true ∧
    mainTail mainCfgA = (MainResult.ok,
      [Event.infoGeneratingTileset, Event.writeTileset, Event.makeImplicit]) :=
  ⟨rfl, c3_main_returns_before_export_phase mainCfgA rfl⟩

/-- Each element's image is an infix of the flattened map. -/
theorem infix_flatMap_mem {α β : Type} {a : α} {as : List α} (h : a ∈ as)
    (f : α → List β) : f a <:+: as.flatMap f := by
  induction as with
  | nil => cases h
  | cons hd tl ih =>
    rw [List.flatMap_cons]
    rcases List.mem_cons.mp h with heq | hmem
    · subst heq
      exact ⟨[], tl.flatMap f, by simp⟩
    · exact (ih hmem).trans ⟨f hd, [], by simp⟩

/-- C4: in the export phase, a tile whose generator exits non-zero or whose
output file is missing gets an error logged for it, every tile of the batch
still contributes its own events (the failing tile does not abort the batch),
and the run's result is still `Ok`. -/
theorem c4_export_failure_isolated (cfg : MainCfg) (t : TileRun)
    (ht : t ∈ cfg.tiles) (hpos : 0 < t.nrItems)
    (hfail : (∃ stdout stderr, t.genResult = SubprocessResult.ok false stdout stderr) ∨
             t.outputExists = false)
    (hio : cfg.toFileOk = true) :
    (∃ e ∈ exportPhase cfg.exportCfg cfg.tiles, GenFailureLog t.tid e) ∧
    (∀ t2 ∈ cfg.tiles,
      exportTile cfg.exportCfg t2 <:+: exportPhase cfg.exportCfg cfg.tiles) ∧
    (mainTail cfg).1 = MainResult.ok := by
  refine ⟨?_, ?_, ?_⟩
  · have hmem : ∀ e, e ∈ exportTile cfg.exportCfg t →
        e ∈ exportPhase cfg.exportCfg cfg.tiles := by
      intro e he
      exact List.mem_flatMap.mpr ⟨t, ht, he⟩
    rcases hfail with ⟨sout, serr, hgen⟩ | hout
    · refine ⟨Event.errorGeneratorFailed t.tid sout serr, hmem _ ?_,
        Or.inl ⟨sout, serr, rfl⟩⟩
      simp [exportTile, hpos, hgen]
    · cases hgenres : t.genResult with
      | ok success sout serr =>
        refine ⟨Event.errorOutputMissing t.tid, hmem _ ?_, Or.inr (Or.inl rfl)⟩
        simp [exportTile, hpos, hgenres, hout]
      | popenError =>
        refine ⟨Event.errorGeneratorPopen t.tid, hmem _ ?_, Or.inr (Or.inr rfl)⟩
        simp [exportTile, hpos, hgenres]
  · intro t2 ht2
    show exportTile cfg.exportCfg t2 <:+: cfg.tiles.flatMap (exportTile cfg.exportCfg)
    exact infix_flatMap_mem ht2 _
  · simp [mainTail, mainTailStmts, runStmt, emit, hio]

/-- Witness for C4: in `mainCfgA`, tile 3 fails (non-zero exit and missing
output) while tile 4 succeeds. -/
theorem c4_witness :
    (tileRunFail ∈ mainCfgA.tiles ∧ 0 < tileRunFail.nrItems) ∧
    (∃ e ∈ exportPhase mainCfgA.exportCfg mainCfgA.tiles,
      GenFailureLog tileRunFail.tid e) ∧
    (∀ t2 ∈ mainCfgA.tiles,
      exportTile mainCfgA.exportCfg t2 <:+:
        exportPhase mainCfgA.exportCfg mainCfgA.tiles) ∧
    (mainTail mainCfgA).1 = MainResult.ok :=
  ⟨⟨by simp [mainCfgA], by norm_num [tileRunFail]⟩,
   (c4_export_failure_isolated mainCfgA tileRunFail (by simp [mainCfgA])
      (by norm_num [tileRunFail]) (Or.inl ⟨"boom", "", rfl⟩) rfl).1,
   (c4_export_failure_isolated mainCfgA tileRunFail (by simp [mainCfgA])
      (by norm_num [tileRunFail]) (Or.inl ⟨"boom", "", rfl⟩) rfl).2.1,
   (c4_export_failure_isolated mainCfgA tileRunFail (by simp [mainCfgA])
      (by norm_num [tileRunFail]) (Or.inl ⟨"boom", "", rfl⟩) rfl).2.2⟩

/-- C5: inserting each feature exactly once (distinct feature ids), with
every centroid inside the extent the grid was built on, every feature id ends
up in exactly one cell — the one `locate_point` assigns to its centroid —
and that cell counts it exactly once; every other cell counts it zero
times. -/
theorem c5_every_feature_in_exactly_one_cell (extent : Bbox) (cs epsg : Nat)
    (hcs : 0 < cs) (inserts : List ((ℚ × ℚ) × Nat))
    (hnodup : (inserts.map Prod.snd).Nodup)
    (hin : ∀ pf ∈ inserts, extent.x0 ≤ pf.1.1 ∧ pf.1.1 ≤ extent.x3 ∧
           extent.x1 ≤ pf.1.2 ∧ pf.1.2 ≤ extent.x4) :
    ∃ g2, insertAll (SquareGrid.new extent cs epsg) inserts = some g2 ∧
      ∀ pf ∈ inserts,
        cellCount g2 ((SquareGrid.new extent cs epsg).locate_point pf.1) pf.2 = 1 ∧
        ∀ cid, cid ≠ (SquareGrid.new extent cs epsg).locate_point pf.1 →
          cellCount g2 cid pf.2 = 0 := by
  obtain ⟨g2, hall, _, _, hdone, _⟩ :=
    insertAll_spec inserts (SquareGrid.new extent cs epsg)
      (fun pf hpf => new_locate_inRange extent hcs epsg (hin pf hpf).1
        (hin pf hpf).2.1 (hin pf hpf).2.2.1 (hin pf hpf).2.2.2)
      hnodup
      (fun pf _ cid => cellCount_new extent cs epsg cid pf.2)
  exact ⟨g2, hall, hdone⟩

/-- Witness for C5 on `extentA` with one feature. -/
theorem c5_witness :
    ((0 : Nat) < 1 ∧ (insertsA.map Prod.snd).Nodup ∧
      (∀ pf ∈ insertsA, extentA.x0 ≤ pf.1.1 ∧ pf.1.1 ≤ extentA.x3 ∧
        extentA.x1 ≤ pf.1.2 ∧ pf.1.2 ≤ extentA.x4)) ∧
    (∃ g2, insertAll (SquareGrid.new extentA 1 0) insertsA = some g2 ∧
      ∀ pf ∈ insertsA,
        cellCount g2 ((SquareGrid.new extentA 1 0).locate_point pf.1) pf.2 = 1 ∧
        ∀ cid, cid ≠ (SquareGrid.new extentA 1 0).locate_point pf.1 →
          cellCount g2 cid pf.2 = 0) :=
  ⟨⟨Nat.one_pos, by simp [insertsA],
    by
      intro pf hpf
      simp only [insertsA, List.mem_singleton] at hpf
      subst hpf
      norm_num [extentA]⟩,
   c5_every_feature_in_exactly_one_cell extentA 1 0 Nat.one_pos insertsA
     (by simp [insertsA])
     (by
       intro pf hpf
       simp only [insertsA, List.mem_singleton] at hpf
       subst hpf
       norm_num [extentA])⟩

/-- C6 counterexample: the claim quantifies over every grid and every point,
but a point far enough beyond the buffered extent makes the computed row
index (here 110) overrun the 25-entry backing array, so `insert` panics
(models as `none`) instead of appending and returning a `CellId`. -/
theorem c6_counterexample : gridA.insert (100, 0) 7 = none := by
  have hloc : gridA.locate_point (100, 0) = (110, 10) := by
    simp only [gridA, extentA, SquareGrid.locate_point, SquareGrid.new, gridBuffer,
      Prod.mk.injEq]
    refine ⟨ceilToUsize_eq_of ?_ ?_ ?_, ceilToUsize_eq_of ?_ ?_ ?_⟩ <;> norm_num [usizeMax]
  have h110 : gridA.data[(110 : Nat)]? = none := by
    apply List.getElem?_eq_none
    rw [gridA_data_length]
    norm_num
  simp only [SquareGrid.insert, hloc]
  simp [h110]

/-- C6 (amended): for every grid and every point whose located cell id is
within the backing array, `insert` computes the cell id as the saturating
cast of `(ceil((x - origin.x)/cellsize), ceil((y - origin.y)/cellsize))`,
appends the feature id to exactly that cell, changes no other cell, and
returns that id; a point whose located id falls outside the array panics
instead. -/
theorem c6_insert_appends_at_located_cell (g : SquareGrid) (p : ℚ × ℚ) (fid : Nat)
    (h : InRangeCid g (g.locate_point p)) :
    g.locate_point p =
      (ceilToUsize ((p.1 - g.origin.1) / (g.cellsize : ℚ)),
       ceilToUsize ((p.2 - g.origin.2) / (g.cellsize : ℚ))) ∧
    ∃ g2, g.insert p fid = some (g2, g.locate_point p) ∧
      cellAt g2 (g.locate_point p) = cellAt g (g.locate_point p) ++ [fid] ∧
      ∀ cid, cid ≠ g.locate_point p → cellAt g2 cid = cellAt g cid := by
  obtain ⟨g2, hins, _, _, _, _, _, _, _, happ, hoth, _⟩ := g.insert_spec p fid h
  exact ⟨rfl, g2, hins, happ, hoth⟩

/-- The in-range fact for the C6 witness. -/
theorem gridA_locate_inRange : InRangeCid gridA (gridA.locate_point (5/2, 3/2)) := by
  show InRangeCid (SquareGrid.new extentA 1 0)
    ((SquareGrid.new extentA 1 0).locate_point (5/2, 3/2))
  exact new_locate_inRange extentA Nat.one_pos 0 (by norm_num [extentA])
    (by norm_num [extentA]) (by norm_num [extentA]) (by norm_num [extentA])

/-- Witness for C6 on `gridA` at the doc-example point. -/
theorem c6_witness :
    InRangeCid gridA (gridA.locate_point (5/2, 3/2)) ∧
    (gridA.locate_point (5/2, 3/2) =
      (ceilToUsize (((5/2 : ℚ) - gridA.origin.1) / (gridA.cellsize : ℚ)),
       ceilToUsize (((3/2 : ℚ) - gridA.origin.2) / (gridA.cellsize : ℚ))) ∧
     ∃ g2, gridA.insert (5/2, 3/2) 42 = some (g2, gridA.locate_point (5/2, 3/2)) ∧
       cellAt g2 (gridA.locate_point (5/2, 3/2)) =
         cellAt gridA (gridA.locate_point (5/2, 3/2)) ++ [42] ∧
       ∀ cid, cid ≠ gridA.locate_point (5/2, 3/2) → cellAt g2 cid = cellAt gridA cid) :=
  ⟨gridA_locate_inRange,
   c6_insert_appends_at_located_cell gridA (5/2, 3/2) 42 gridA_locate_inRange⟩

/-- C7 counterexample: `(30, 0)` is outside the `25 × 25` range of `gridA`,
the spec-modelled `cell` lookup does fail there, but `cell_bbox` does not
fail: it returns the arithmetically computed box
`[20, -10, -10, 21, -9, 14]`. -/
theorem c7_counterexample :
    ¬ InRangeCid gridA (30, 0) ∧
    gridA.cell (30, 0) = none ∧
    gridA.cell_bbox (30, 0) = ⟨20, -10, -10, 21, -9, 14⟩ := by
  refine ⟨gridA_cid_out, ?_, ?_⟩
  · have h30 : gridA.data[(30 : Nat)]? = none := by
      apply List.getElem?_eq_none
      rw [gridA_data_length]
      norm_num
    simp [SquareGrid.cell, h30]
  · show SquareGrid.cell_bbox gridA (30, 0) = _
    simp only [SquareGrid.cell_bbox, gridA, extentA, SquareGrid.new, gridBuffer]
    norm_num

/-- C7 (amended): for every cell id outside the backing array, the
spec-modelled `cell` lookup fails (returns no cell), but `cell_bbox`
performs no range check at all: it returns the bbox computed arithmetically
from the origin and the cellsize for any id whatsoever. -/
theorem c7_cell_fails_cell_bbox_returns (g : SquareGrid) (cid : CellId)
    (hout : ¬ InRangeCid g cid) :
    g.cell cid = none ∧
    g.cell_bbox cid =
      ⟨g.origin.1 + ((cid.1 * g.cellsize : Nat) : ℚ),
       g.origin.2 + ((cid.2 * g.cellsize : Nat) : ℚ),
       g.bbox.x2,
       g.origin.1 + ((cid.1 * g.cellsize : Nat) : ℚ) + (g.cellsize : ℚ),
       g.origin.2 + ((cid.2 * g.cellsize : Nat) : ℚ) + (g.cellsize : ℚ),
       g.bbox.x5⟩ := by
  constructor
  · unfold InRangeCid at hout
    push_neg at hout
    cases h1 : g.data[cid.1]? with
    | none => simp [SquareGrid.cell, h1]
    | some col =>
      have hlt : cid.1 < g.data.length := by
        by_contra hge
        rw [List.getElem?_eq_none (Nat.le_of_not_lt hge)] at h1
        exact Option.noConfusion h1
      have hge2 := hout hlt
      have hgd : g.data.getD cid.1 [] = col := by
        rw [List.getD_eq_getElem?_getD, h1, Option.getD_some]
      rw [hgd] at hge2
      have h2 : col[cid.2]? = none := List.getElem?_eq_none hge2
      simp [SquareGrid.cell, h1, h2]
  · rfl

/-- Witness for C7 at `gridA` and the out-of-range id `(30, 0)`. -/
theorem c7_witness :
    ¬ InRangeCid gridA (30, 0) ∧
    (gridA.cell (30, 0) = none ∧
     gridA.cell_bbox (30, 0) =
       ⟨gridA.origin.1 + (((30 : Nat) * gridA.cellsize : Nat) : ℚ),
        gridA.origin.2 + (((0 : Nat) * gridA.cellsize : Nat) : ℚ),
        gridA.bbox.x2,
        gridA.origin.1 + (((30 : Nat) * gridA.cellsize : Nat) : ℚ) + (gridA.cellsize : ℚ),
        gridA.origin.2 + (((0 : Nat) * gridA.cellsize : Nat) : ℚ) + (gridA.cellsize : ℚ),
        gridA.bbox.x5⟩) :=
  ⟨gridA_cid_out, c7_cell_fails_cell_bbox_returns gridA (30, 0) gridA_cid_out⟩

/-- C8 counterexample: on the all-NaN extent, `SquareGrid::new` does not
fail — NaN propagates through the size computation, `NaN as usize` casts to
`0`, and a well-formed degenerate `1 × 1` grid with a NaN origin is
returned. -/
theorem c8_counterexample :
    (SquareGridF.new nanExtent 1 0).length = 0 ∧
    (SquareGridF.new nanExtent 1 0).data = [[[]]] ∧
    (SquareGridF.new nanExtent 1 0).origin = (none, none) :=
  ⟨rfl, rfl, rfl⟩

/-- C8 (amended): `SquareGrid::new` has no failure path at all: for every
extent — finite coordinates or NaN — and positive cellsize, construction
returns a grid whose backing array is a fully allocated
`(length+1) × (length+1)` array; a non-finite extent silently yields a
degenerate grid instead of an error. -/
theorem c8_new_never_fails (extent : BboxF) (cs epsg : Nat) (hcs : 0 < cs) :
    (SquareGridF.new extent cs epsg).data.length =
      (SquareGridF.new extent cs epsg).length + 1 ∧
    ∀ col ∈ (SquareGridF.new extent cs epsg).data,
      col.length = (SquareGridF.new extent cs epsg).length + 1 := by
  constructor
  · exact List.length_replicate _ _
  · intro col hcol
    rw [List.eq_of_mem_replicate hcol, List.length_replicate]
    rfl

/-- Witness for C8 at the all-NaN extent. -/
theorem c8_witness :
    (0 : Nat) < 1 ∧
    ((SquareGridF.new nanExtent 1 0).data.length =
       (SquareGridF.new nanExtent 1 0).length + 1 ∧
     ∀ col ∈ (SquareGridF.new nanExtent 1 0).data,
       col.length = (SquareGridF.new nanExtent 1 0).length + 1) :=
  ⟨Nat.one_pos, c8_new_never_fails nanExtent 1 0 Nat.one_pos⟩

/-- C9 counterexample: in `gridB` the iterator yields the pair with id
`(2, 1)` carrying the empty cell, although `data[2][1]` — the cell that
`insert` and `cell_bbox` associate with id `(2, 1)`, and the one `insert`
filled — contains `[42]`: the yielded pairing is the transpose of the
`data[cellid[0]][cellid[1]]` convention. -/
theorem c9_counterexample :
    ((2, 1), ([] : Cell)) ∈ gridB.iter ∧ cellAt gridB (2, 1) = [42] := by
  constructor
  · rw [SquareGrid.iter_eq]
    simp only [cellAt, gridB_data]
    decide
  · simp only [cellAt, gridB_data]
    decide

/-- C9 (amended): iterating a grid yields exactly one pair per entry of the
full backing array, empty cells included, with the outer array index
advancing slowest; but the yielded `CellId` `(r, c)` carries the cell
`data[c][r]` — the transpose of the `data[cellid[0]][cellid[1]]` convention
used by `insert` and `cell_bbox`. -/
theorem c9_iteration_characterization (g : SquareGrid) :
    g.iter = (List.range g.data.length).flatMap
      (fun c => (List.range ((g.data.getD c []).length)).map
        (fun r => ((r, c), cellAt g (c, r)))) :=
  SquareGrid.iter_eq g

/-- C10: a point at or below/left of the buffered origin has nonpositive
offsets, the ceilings are nonpositive, the `as usize` casts saturate to `0`,
and `insert` silently appends the feature id to boundary cell `(0, 0)` and
returns `[0, 0]` — no failure. -/
theorem c10_insert_saturates_below_origin (extent : Bbox) (cs epsg : Nat) (hcs : 0 < cs)
    (p : ℚ × ℚ) (fid : Nat)
    (hx : p.1 ≤ (SquareGrid.new extent cs epsg).origin.1)
    (hy : p.2 ≤ (SquareGrid.new extent cs epsg).origin.2) :
    (SquareGrid.new extent cs epsg).locate_point p = (0, 0) ∧
    ∃ g2, (SquareGrid.new extent cs epsg).insert p fid = some (g2, (0, 0)) ∧
      cellAt g2 (0, 0) = cellAt (SquareGrid.new extent cs epsg) (0, 0) ++ [fid] := by
  have hcsQ : (0 : ℚ) < ((cs : Nat) : ℚ) := by
    exact_mod_cast hcs
  have hloc : (SquareGrid.new extent cs epsg).locate_point p = (0, 0) := by
    have hx0 : (p.1 - (SquareGrid.new extent cs epsg).origin.1) /
        ((SquareGrid.new extent cs epsg).cellsize : ℚ) ≤ 0 :=
      div_nonpos_of_nonpos_of_nonneg (sub_nonpos.mpr hx) (le_of_lt hcsQ)
    have hy0 : (p.2 - (SquareGrid.new extent cs epsg).origin.2) /
        ((SquareGrid.new extent cs epsg).cellsize : ℚ) ≤ 0 :=
      div_nonpos_of_nonpos_of_nonneg (sub_nonpos.mpr hy) (le_of_lt hcsQ)
    simp only [SquareGrid.locate_point, Prod.mk.injEq]
    exact ⟨ceilToUsize_eq_zero hx0, ceilToUsize_eq_zero hy0⟩
  have hrange : InRangeCid (SquareGrid.new extent cs epsg)
      ((SquareGrid.new extent cs epsg).locate_point p) := by
    rw [hloc]
    constructor
    · rw [new_data_length]
      omega
    · show (0 : Nat) < ((SquareGrid.new extent cs epsg).data.getD 0 []).length
      have hcol0 : ((SquareGrid.new extent cs epsg).data.getD 0 []).length =
          (SquareGrid.new extent cs epsg).length + 1 := by
        show ((List.replicate ((SquareGrid.new extent cs epsg).length + 1)
            (List.replicate ((SquareGrid.new extent cs epsg).length + 1)
              ([] : Cell))).getD 0 []).length = _
        rw [getD_replicate, if_pos (Nat.succ_pos _), List.length_replicate]
      rw [hcol0]
      omega
  obtain ⟨g2, hins, _, _, _, _, _, _, _, happ, _, _⟩ :=
    (SquareGrid.new extent cs epsg).insert_spec p fid hrange
  rw [hloc] at hins happ
  exact ⟨hloc, g2, hins, happ⟩

/-- Witness for C10: the point `(-20, -30)` lies below and left of the
buffered origin `(-10, -10)` of the scenario-A grid. -/
theorem c10_witness :
    (((-20 : ℚ), (-30 : ℚ)).1 ≤ (SquareGrid.new extentA 1 0).origin.1 ∧
     ((-20 : ℚ), (-30 : ℚ)).2 ≤ (SquareGrid.new extentA 1 0).origin.2) ∧
    ((SquareGrid.new extentA 1 0).locate_point (-20, -30) = (0, 0) ∧
     ∃ g2, (SquareGrid.new extentA 1 0).insert (-20, -30) 9 = some (g2, (0, 0)) ∧
       cellAt g2 (0, 0) = cellAt (SquareGrid.new extentA 1 0) (0, 0) ++ [9]) :=
  ⟨⟨by norm_num [SquareGrid.new, extentA, gridBuffer],
    by norm_num [SquareGrid.new, extentA, gridBuffer]⟩,
   c10_insert_saturates_below_origin extentA 1 0 Nat.one_pos (-20, -30) 9
     (by norm_num [SquareGrid.new, extentA, gridBuffer])
     (by norm_num [SquareGrid.new, extentA, gridBuffer])⟩
